import Mathlib

/-!
Verification of the VOLTTRON `AuthService` (volttron/platform/auth/auth.py).

This file shallowly embeds the pieces of `AuthService` that the claims are
about: the `authenticate` entry point with its ordered fallback chain, the
pending-credential admission queue (`_update_auth_pending`), the operator
actions (`approve_authorization_failure` / `delete_authorization_failure`),
the RPC-authorization reconciliation push (`update_rpc_authorizations`), and
the per-method capability mutation API (`add_rpc_authorizations` /
`delete_rpc_authorizations`).

Python strings are modelled as Lean `String`s; the few string primitives the
source uses (`str.split`, `str.startswith`, `int(...)`) are re-implemented
over the underlying character lists so that all definitions evaluate inside
the kernel.  Python `None` is modelled as `Option.none` where the source can
hold `None`, and Python truthiness is made explicit.  Code of the repository
that lives outside `auth.py` (AuthEntry matching, the AuthFile store,
`dump_user`) is modelled from the specification; each such definition is
marked `Modelled from the spec:` in its doc comment.
-/

/-! ## String primitives -/

/-- Splits a character list on a separator, mirroring Python's
`str.split(sep)` (which always returns at least one piece). -/
def splitOnChar (sep : Char) : List Char → List (List Char)
  | [] => [[]]
  | c :: rest =>
    let r := splitOnChar sep rest
    if c = sep then [] :: r
    else
      match r with
      | [] => [[c]]
      | h :: t => (c :: h) :: t

/-- Python `s.split(sep)` for a one-character separator. -/
def strSplit (s : String) (sep : Char) : List String :=
  (splitOnChar sep s.data).map String.mk

/-- Python `s.startswith(pre)`. -/
def strStarts (s pre : String) : Bool :=
  pre.data.isPrefixOf s.data

/-- Numeric value of a decimal digit character. -/
def digitVal (c : Char) : Nat := c.toNat - 48

/-- A non-empty all-digit character list read as a decimal number. -/
def decimalDigits? (cs : List Char) : Option Nat :=
  match cs with
  | [] => none
  | _ =>
    if cs.all Char.isDigit then
      some (cs.foldl (fun n c => 10 * n + digitVal c) 0)
    else none

/-- Python's built-in `int(s)`: optional surrounding whitespace, optional
sign, then decimal digits; any other shape raises `ValueError`, modelled as
`none`. -/
def pyToInt? (s : String) : Option Int :=
  let cs := ((s.data.dropWhile Char.isWhitespace).reverse.dropWhile
    Char.isWhitespace).reverse
  match cs with
  | '-' :: rest => (decimalDigits? rest).map (fun n => -(n : Int))
  | '+' :: rest => (decimalDigits? rest).map (fun n => (n : Int))
  | _ => (decimalDigits? cs).map (fun n => (n : Int))

/-- Python truthiness of an optional string (`None` and `""` are falsy). -/
def pyTruthyOpt : Option String → Bool
  | none => false
  | some s => !s.isEmpty

/-! ## Policy-entry matcher model (claims C1, C2, C10)

`AuthEntry` and its `match`/ordering live outside `auth.py`; they are
modelled from the specification (§3, §4.1). -/

/-- Modelled from the spec: a stored field value of an auth entry is either a
literal string or a value flagged as a regex pattern; a pattern value matches
a candidate string by regex fullmatch, abstracted here as a Boolean test
function. -/
inductive CredPattern where
  | literal (s : String)
  | pattern (test : String → Bool)

/-- Whether the stored value is flagged as a pattern. -/
def CredPattern.isPat : CredPattern → Bool
  | .literal _ => false
  | .pattern _ => true

/-- Modelled from the spec: exact string equality for a literal value, regex
fullmatch (abstracted) for a pattern value. -/
def CredPattern.matchStr : CredPattern → String → Bool
  | .literal s, t => s == t
  | .pattern f, t => f t

/-- The fields of one policy entry that participate in matching, plus the
resolved user id and the enabled flag (spec §3). -/
structure MatchEntry where
  domain : CredPattern
  address : CredPattern
  mechanism : String
  credentials : CredPattern
  user_id : String
  enabled : Bool

/-- Modelled from the spec (§4.1): an entry matches a connection tuple when
domain, address and credentials each match literally-or-by-pattern, and the
mechanism matches by exact equality; the credential tested is the first
element of the supplied credential list. -/
def MatchEntry.matchTuple (e : MatchEntry) (domain address mechanism : String)
    (credentials : List String) : Bool :=
  e.domain.matchStr domain && e.address.matchStr address &&
    (e.mechanism == mechanism) &&
    (match credentials with
     | [] => false
     | c :: _ => e.credentials.matchStr c)

/-- Modelled from the spec (§3 invariant): entries with literal credentials
sort before entries whose credentials are patterns. -/
def entryLE (x y : MatchEntry) : Prop :=
  x.credentials.isPat ≤ y.credentials.isPat

instance : DecidableRel entryLE :=
  fun _ _ => inferInstanceAs (Decidable (_ ≤ _))

instance : IsTotal MatchEntry entryLE :=
  ⟨fun x y => le_total x.credentials.isPat y.credentials.isPat⟩

instance : IsTrans MatchEntry entryLE :=
  ⟨fun _ _ _ h1 h2 => le_trans h1 h2⟩

/-- `entries.sort()` of `read_auth_file` (auth.py line 513). -/
def sortEntries (es : List MatchEntry) : List MatchEntry :=
  List.insertionSort entryLE es

/-- The enabled-entry snapshot installed by `read_auth_file`
(auth.py lines 511-514): filter to enabled entries, then sort so the regex
credentials follow the concrete credentials. -/
def authSnapshot (es : List MatchEntry) : List MatchEntry :=
  sortEntries (es.filter (fun e => e.enabled))

/-- Modelled from the spec (§4.1): `dump_user` composes its string arguments
into a synthetic user id. -/
def dump_user (fields : List String) : String :=
  String.intercalate "," fields

/-- The platform environment `authenticate` consults: the global
`allow_any` flag, `os.getuid()`, and `aip.agent_uuid_from_pid` (an external
collaborator, modelled as an oracle; `none` means no locally-known agent). -/
structure AuthEnv where
  allow_any : Bool
  getuid : Int
  agent_uuid_from_pid : Int → Option String

/-- A Python exception escaping `authenticate`. -/
inductive PyErr where
  | valueError
deriving DecidableEq, Repr

/-- The loop of `authenticate` (auth.py lines 644-645): the first entry of
the snapshot matching all four fields. -/
def firstMatch (entries : List MatchEntry) (domain address mechanism : String)
    (credentials : List String) : Option MatchEntry :=
  match entries with
  | [] => none
  | e :: rest =>
    if e.matchTuple domain address mechanism credentials then some e
    else firstMatch rest domain address mechanism credentials

/-- `entry.user_id or dump_user(domain, address, mechanism,
*credentials[:1])` (auth.py lines 646-648); an unset user id is modelled as
the empty (falsy) string. -/
def resolveUser (e : MatchEntry) (domain address mechanism : String)
    (credentials : List String) : String :=
  if e.user_id = "" then
    dump_user ([domain, address, mechanism] ++ credentials.take 1)
  else e.user_id

/-- `address.split(":")[1:]` (auth.py line 650). -/
def addrParts (address : String) : List String :=
  (strSplit address ':').drop 1

/-- Python `parts[i]` (the paths using it are guarded so the index is in
range; an out-of-range read is modelled as ""). -/
def pyIdx (l : List String) (i : Nat) : String := l.getD i ""

/-- The `len(parts) > 2` step of the fallback (auth.py lines 651-655):
parse the third component as a pid, resolve it to an agent uuid, and on a
truthy uuid return the "AGENT"-tagged synthetic user id. -/
def pidStepFn (env : AuthEnv) (domain address : String)
    (parts : List String) : Except PyErr (Option String) :=
  if parts.length > 2 then
    match pyToInt? (pyIdx parts 2) with
    | none => .error .valueError
    | some pid =>
      if pyTruthyOpt (env.agent_uuid_from_pid pid) then
        .ok (some (dump_user [domain, address, "AGENT",
          (env.agent_uuid_from_pid pid).getD ""]))
      else .ok none
  else .ok none

/-- The `mechanism == "NULL" and address.startswith("localhost:")` branch of
the fallback (auth.py lines 649-658): after the pid step, parse the first
component as a uid and compare it against `os.getuid()`. -/
def nullStepFn (env : AuthEnv) (domain address mechanism : String)
    (credentials : List String) : Except PyErr (Option String) :=
  if mechanism = "NULL" ∧ strStarts address "localhost:" = true then
    match pidStepFn env domain address (addrParts address) with
    | .error err => .error err
    | .ok (some u) => .ok (some u)
    | .ok none =>
      match pyToInt? (pyIdx (addrParts address) 0) with
      | none => .error .valueError
      | some uid =>
        if uid = env.getuid then
          .ok (some (dump_user ([domain, address, mechanism] ++
            credentials.take 1)))
        else .ok none
  else .ok none

/-- `AuthService.authenticate` (auth.py lines 643-660).  Returns
`.ok (some uid)` for an authenticated connection, `.ok none` for an
unauthenticated one, and `.error .valueError` when the unguarded `int(...)`
conversions raise. -/
def authenticate (env : AuthEnv) (entries : List MatchEntry)
    (domain address mechanism : String) (credentials : List String) :
    Except PyErr (Option String) :=
  match firstMatch entries domain address mechanism credentials with
  | some e => .ok (some (resolveUser e domain address mechanism credentials))
  | none =>
    match nullStepFn env domain address mechanism credentials with
    | .error err => .error err
    | .ok (some u) => .ok (some u)
    | .ok none =>
      if env.allow_any then
        .ok (some (dump_user ([domain, address, mechanism] ++
          credentials.take 1)))
      else .ok none

/-! ## C10: the unguarded int() conversions -/

/-- C10: authenticate is not total over its stated input domain — with no
matching entry, mechanism "NULL" and an address of the form "localhost:X"
whose uid component (or third colon-separated component, when present) is
not a decimal integer, authenticate raises ValueError from the unguarded
int() conversion instead of returning an unauthenticated result; the
allow-any flag does not rescue it. -/
theorem c10_authenticate_raises :
    authenticate ⟨false, 1000, fun _ => none⟩ [] "" "localhost:abc" "NULL"
      ["cred"] = .error .valueError ∧
    authenticate ⟨true, 1000, fun _ => none⟩ [] "" "localhost:1:2:x" "NULL"
      ["cred"] = .error .valueError := by
  exact ⟨rfl, rfl⟩

/-! ## C1: literal entries win over pattern entries -/

/-- On a list sorted literal-credentials-first, the first matching entry is
the (unique) matching literal entry, whatever the store order was. -/
theorem firstMatch_sorted_literal (l : List MatchEntry) (d a m : String)
    (cs : List String) (L : MatchEntry)
    (hs : List.Sorted entryLE l) (hmem : L ∈ l)
    (hm : L.matchTuple d a m cs = true)
    (hlit : L.credentials.isPat = false)
    (honly : ∀ e ∈ l, e.matchTuple d a m cs = true →
      e.credentials.isPat = false → e = L) :
    firstMatch l d a m cs = some L := by
  induction l with
  | nil => cases hmem
  | cons e t ih =>
    rw [List.sorted_cons] at hs
    obtain ⟨hle, hst⟩ := hs
    by_cases hme : e.matchTuple d a m cs = true
    · have hepat : e.credentials.isPat = false := by
        rcases List.mem_cons.mp hmem with rfl | hmemt
        · exact hlit
        · have hle2 := hle L hmemt
          unfold entryLE at hle2
          rw [hlit] at hle2
          cases hpe : e.credentials.isPat with
          | false => rfl
          | true => rw [hpe] at hle2; exact absurd hle2 (by decide)
      have heL : e = L := honly e (List.mem_cons_self e t) hme hepat
      subst heL
      simp [firstMatch, hme]
    · have hmemt : L ∈ t := by
        rcases List.mem_cons.mp hmem with rfl | h
        · exact absurd hm hme
        · exact h
      have honly2 : ∀ x ∈ t, x.matchTuple d a m cs = true →
          x.credentials.isPat = false → x = L := by
        intro x hx h1 h2
        exact honly x (List.mem_cons_of_mem e hx) h1 h2
      have := ih hst hmemt honly2
      simpa [firstMatch, hme] using this

/-- C1: for every enabled-entry snapshot sorted in the literal-before-pattern
invariant order, authenticate returns the user id of the first entry all four
of whose fields match; in particular a tuple that exactly matches a literal
entry resolves to that literal entry even if a broader pattern entry also
matches, regardless of store order. -/
theorem c1_literal_entry_wins (env : AuthEnv) (es : List MatchEntry)
    (d a m : String) (cs : List String) (L : MatchEntry)
    (hmem : L ∈ es) (hen : L.enabled = true)
    (hm : L.matchTuple d a m cs = true)
    (hlit : L.credentials.isPat = false)
    (honly : ∀ e ∈ es, e.enabled = true → e.matchTuple d a m cs = true →
      e.credentials.isPat = false → e = L) :
    authenticate env (authSnapshot es) d a m cs =
      .ok (some (resolveUser L d a m cs)) := by
  have hfm : firstMatch (authSnapshot es) d a m cs = some L := by
    apply firstMatch_sorted_literal
    · exact List.sorted_insertionSort entryLE _
    · have hf : L ∈ es.filter (fun e => e.enabled) :=
        List.mem_filter.mpr ⟨hmem, hen⟩
      exact ((List.perm_insertionSort entryLE _).mem_iff).mpr hf
    · exact hm
    · exact hlit
    · intro e hmem2 hme hep
      have he : e ∈ es.filter (fun x => x.enabled) :=
        ((List.perm_insertionSort entryLE _).mem_iff).mp hmem2
      obtain ⟨h1, h2⟩ := List.mem_filter.mp he
      exact honly e h1 (by simpa using h2) hme hep
  simp only [authenticate, hfm]

/-- C1 witness: the spec's scenario — a broad pattern entry placed first in
store order and a literal entry for ("", "localhost:1234", "NULL", "bob");
the literal entry's user id is returned. -/
theorem c1_witness :
    authenticate ⟨false, 1000, fun _ => none⟩
      (authSnapshot
        [⟨.pattern (fun _ => true), .pattern (fun s => strStarts s "localhost:"),
          "NULL", .pattern (fun _ => true), "pat-id", true⟩,
         ⟨.literal "", .literal "localhost:1234", "NULL", .literal "bob",
          "bob-id", true⟩])
      "" "localhost:1234" "NULL" ["bob"] = .ok (some "bob-id") := by
  have h := c1_literal_entry_wins ⟨false, 1000, fun _ => none⟩
    [⟨.pattern (fun _ => true), .pattern (fun s => strStarts s "localhost:"),
      "NULL", .pattern (fun _ => true), "pat-id", true⟩,
     ⟨.literal "", .literal "localhost:1234", "NULL", .literal "bob",
      "bob-id", true⟩]
    "" "localhost:1234" "NULL" ["bob"]
    ⟨.literal "", .literal "localhost:1234", "NULL", .literal "bob",
      "bob-id", true⟩
    (by simp) rfl rfl rfl
    (by
      intro e he h1 h2 h3
      rcases List.mem_cons.mp he with rfl | he2
      · exact absurd h3 (by simp [CredPattern.isPat])
      · simpa using he2)
  simpa [resolveUser] using h

/-! ## C2: the ordered fallback chain on no match -/

/-- If no entry matches, the matcher loop finds nothing. -/
theorem firstMatch_none (entries : List MatchEntry) (d a m : String)
    (cs : List String)
    (h : ∀ e ∈ entries, e.matchTuple d a m cs = false) :
    firstMatch entries d a m cs = none := by
  induction entries with
  | nil => rfl
  | cons e t ih =>
    have he := h e (List.mem_cons_self e t)
    simp only [firstMatch, he]
    exact ih (fun x hx => h x (List.mem_cons_of_mem e hx))

/-- Conditions under which the "NULL"/loopback branch runs to its end
without returning a user id and without raising: when a third component is
present its pid parses but resolves to no (truthy) agent uuid, and the first
component parses to a uid different from the coordinator's own. -/
def nullBranchNoReturn (env : AuthEnv) (address : String) : Prop :=
  ((addrParts address).length > 2 →
    ∃ pid, pyToInt? (pyIdx (addrParts address) 2) = some pid ∧
      pyTruthyOpt (env.agent_uuid_from_pid pid) = false) ∧
  (∃ uid, pyToInt? (pyIdx (addrParts address) 0) = some uid ∧
    uid ≠ env.getuid)

/-- The pid step yields no user when the pid resolves to nothing truthy. -/
theorem pidStep_none (env : AuthEnv) (d a : String) (parts : List String)
    (h : parts.length > 2 →
      ∃ pid, pyToInt? (pyIdx parts 2) = some pid ∧
        pyTruthyOpt (env.agent_uuid_from_pid pid) = false) :
    pidStepFn env d a parts = .ok none := by
  by_cases hl : parts.length > 2
  · obtain ⟨pid, h1, h2⟩ := h hl
    simp [pidStepFn, hl, h1, h2]
  · simp [pidStepFn, hl]

/-- The whole "NULL" branch yields no user when it does not apply, or when
it applies but runs to its end. -/
theorem nullStep_none (env : AuthEnv) (d a m : String) (cs : List String)
    (h : ¬(m = "NULL" ∧ strStarts a "localhost:" = true) ∨
      (m = "NULL" ∧ strStarts a "localhost:" = true ∧
        nullBranchNoReturn env a)) :
    nullStepFn env d a m cs = .ok none := by
  rcases h with h | ⟨hm, hstart, hpid, uid, hparse, hne⟩
  · simp [nullStepFn, h]
  · have hps := pidStep_none env d a (addrParts a) hpid
    simp [nullStepFn, hm, hstart, hps, hparse, hne]

/-- C2: for every connection tuple matching no enabled entry, authenticate
applies the ordered fallback chain: (a) mechanism "NULL" with a loopback
address whose embedded pid resolves to a locally-known agent yields the
"AGENT"-tagged synthetic user id; (b) else a loopback address encoding the
coordinator's own OS uid yields a user id synthesized from the raw tuple;
(c) else the global allow-any flag yields a synthesized user id; (d) else
the attempt is unauthenticated. -/
theorem c2_fallback_chain (env : AuthEnv) (entries : List MatchEntry)
    (d a m : String) (cs : List String)
    (hnm : ∀ e ∈ entries, e.matchTuple d a m cs = false) :
    (∀ pid g, m = "NULL" → strStarts a "localhost:" = true →
      (addrParts a).length > 2 →
      pyToInt? (pyIdx (addrParts a) 2) = some pid →
      env.agent_uuid_from_pid pid = some g → g.isEmpty = false →
      authenticate env entries d a m cs =
        .ok (some (dump_user [d, a, "AGENT", g]))) ∧
    (∀ uid, m = "NULL" → strStarts a "localhost:" = true →
      ((addrParts a).length > 2 →
        ∃ pid, pyToInt? (pyIdx (addrParts a) 2) = some pid ∧
          pyTruthyOpt (env.agent_uuid_from_pid pid) = false) →
      pyToInt? (pyIdx (addrParts a) 0) = some uid → uid = env.getuid →
      authenticate env entries d a m cs =
        .ok (some (dump_user ([d, a, m] ++ cs.take 1)))) ∧
    ((¬(m = "NULL" ∧ strStarts a "localhost:" = true) ∨
        (m = "NULL" ∧ strStarts a "localhost:" = true ∧
          nullBranchNoReturn env a)) →
      env.allow_any = true →
      authenticate env entries d a m cs =
        .ok (some (dump_user ([d, a, m] ++ cs.take 1)))) ∧
    ((¬(m = "NULL" ∧ strStarts a "localhost:" = true) ∨
        (m = "NULL" ∧ strStarts a "localhost:" = true ∧
          nullBranchNoReturn env a)) →
      env.allow_any = false →
      authenticate env entries d a m cs = .ok none) := by
  have hfm := firstMatch_none entries d a m cs hnm
  refine ⟨?_, ?_, ?_, ?_⟩
  · intro pid g hm hstart hlen hparse hres hg
    have hps : pidStepFn env d a (addrParts a) =
        .ok (some (dump_user [d, a, "AGENT", g])) := by
      simp [pidStepFn, hlen, hparse, hres, pyTruthyOpt, hg]
    have hns : nullStepFn env d a m cs =
        .ok (some (dump_user [d, a, "AGENT", g])) := by
      simp [nullStepFn, hm, hstart, hps]
    simp [authenticate, hfm, hns]
  · intro uid hm hstart hpid hparse huid
    have hps := pidStep_none env d a (addrParts a) hpid
    have hns : nullStepFn env d a m cs =
        .ok (some (dump_user ([d, a, m] ++ cs.take 1))) := by
      simp [nullStepFn, hm, hstart, hps, hparse, huid]
    simp [authenticate, hfm, hns]
  · intro h hany
    have hns := nullStep_none env d a m cs h
    simp [authenticate, hfm, hns, hany]
  · intro h hany
    have hns := nullStep_none env d a m cs h
    simp [authenticate, hfm, hns, hany]

/-- C2 witness: the spec's scenario — no entries, allow_any off, mechanism
"NULL", address "localhost:9999:5:6" with uid 9999 different from the
coordinator's uid 1000 and no resolvable agent — is unauthenticated. -/
theorem c2_witness :
    authenticate ⟨false, 1000, fun _ => none⟩ [] "" "localhost:9999:5:6"
      "NULL" ["alice"] = .ok none := by
  have h := c2_fallback_chain ⟨false, 1000, fun _ => none⟩ []
    "" "localhost:9999:5:6" "NULL" ["alice"] (fun e he => absurd he (by simp))
  exact h.2.2.2 (Or.inr ⟨rfl, rfl, fun _ => ⟨6, rfl, rfl⟩,
    ⟨9999, rfl, by decide⟩⟩) rfl

/-! ## Queue and store model (claims C3, C4)

The coordinator's mutable state: the persisted AuthFile store (an external
collaborator, modelled from its §6 contract) and the in-memory
`_auth_pending` / `_auth_approved` / `_auth_denied` queues of `auth.py`. -/

/-- One record of the `_auth_pending` / `_auth_approved` / `_auth_denied`
queues (the dicts built at auth.py lines 434-441 and 1045-1052).  The
address can be `None` in the underlying entry, hence `Option`. -/
structure QRec where
  domain : String
  address : Option String
  mechanism : String
  credentials : String
  user_id : String
  retries : Nat
deriving DecidableEq, Repr

/-- The exact 4-tuple equality test of `_update_auth_pending`
(auth.py lines 1025-1030 and 1036-1040). -/
def QRec.tupleEq (r : QRec) (domain : String) (address : Option String)
    (mechanism credential : String) : Bool :=
  (r.domain == domain) && (r.address == address) &&
    (r.mechanism == mechanism) && (r.credentials == credential)

/-- One persisted entry of the AuthFile allow/deny lists, restricted to the
fields `auth.py` reads and writes. -/
structure StoredEntry where
  domain : String
  address : Option String
  mechanism : String
  credentials : String
  user_id : String
  comments : String
  enabled : Bool
deriving DecidableEq, Repr

/-- Modelled from the spec (§6): the persistent policy store's allow and
deny entry lists. -/
structure AuthStore where
  allow : List StoredEntry
  deny : List StoredEntry
deriving DecidableEq, Repr

/-- The coordinator state: the persisted store and the three in-memory
queues. -/
structure AuthState where
  store : AuthStore
  pending : List QRec
  approved : List QRec
  denied : List QRec
deriving DecidableEq, Repr

/-- The freshly initialized coordinator state (auth.py lines 120-122). -/
def emptyAuthState : AuthState := ⟨⟨[], []⟩, [], [], []⟩

/-- The in-place `entry["retries"] += 1; return` of the queue scan loops
(auth.py lines 1022-1043): increments the retries of the first record
satisfying the test, or reports that none does. -/
def incFirstRetries (q : List QRec) (p : QRec → Bool) : Option (List QRec) :=
  match q with
  | [] => none
  | r :: rest =>
    if p r then some ({ r with retries := r.retries + 1 } :: rest)
    else (incFirstRetries rest p).map (fun rest2 => r :: rest2)

/-- `AuthService._update_auth_pending` (auth.py lines 1013-1054): dedup
against the denied queue, then the pending queue, by exact 4-tuple equality;
on a hit increment that record's retries, otherwise append a new pending
record with retries 1. -/
def updateAuthPending (s : AuthState) (domain : String)
    (address : Option String) (mechanism credential user_id : String) :
    AuthState :=
  match incFirstRetries s.denied
      (fun r => r.tupleEq domain address mechanism credential) with
  | some denied2 => { s with denied := denied2 }
  | none =>
    match incFirstRetries s.pending
        (fun r => r.tupleEq domain address mechanism credential) with
    | some pending2 => { s with pending := pending2 }
    | none =>
      { s with pending := s.pending ++
          [⟨domain, address, mechanism, credential, user_id, 1⟩] }

/-! ## C3: pending-queue dedup -/

/-- When some record satisfies the test, `incFirstRetries` increments the
retries of exactly the first such record. -/
theorem incFirstRetries_of_any (q : List QRec) (p : QRec → Bool)
    (h : q.any p = true) :
    ∃ q1 r q2, q = q1 ++ r :: q2 ∧ (∀ x ∈ q1, p x = false) ∧ p r = true ∧
      incFirstRetries q p =
        some (q1 ++ { r with retries := r.retries + 1 } :: q2) := by
  induction q with
  | nil => cases h
  | cons r rest ih =>
    by_cases hpr : p r = true
    · refine ⟨[], r, rest, rfl, ?_, hpr, ?_⟩
      · intro x hx
        cases hx
      · simp [incFirstRetries, hpr]
    · have hrest : rest.any p = true := by
        rcases List.any_eq_true.mp h with ⟨x, hx, hpx⟩
        rcases List.mem_cons.mp hx with rfl | hx2
        · exact absurd hpx hpr
        · exact List.any_eq_true.mpr ⟨x, hx2, hpx⟩
      obtain ⟨q1, r2, q2, heq, h1, h2, h3⟩ := ih hrest
      refine ⟨r :: q1, r2, q2, by rw [heq]; rfl, ?_, h2, ?_⟩
      · intro x hx
        rcases List.mem_cons.mp hx with rfl | hx2
        · exact (Bool.not_eq_true _).mp hpr
        · exact h1 x hx2
      · simp [incFirstRetries, hpr, h3]

/-- When no record satisfies the test, `incFirstRetries` reports none. -/
theorem incFirstRetries_of_none (q : List QRec) (p : QRec → Bool)
    (h : q.any p = false) : incFirstRetries q p = none := by
  induction q with
  | nil => rfl
  | cons r rest ih =>
    rcases List.any_eq_false.mp h r (List.mem_cons_self r rest) with hpr
    have hrest : rest.any p = false := by
      apply List.any_eq_false.mpr
      intro x hx
      exact List.any_eq_false.mp h x (List.mem_cons_of_mem r hx)
    simp [incFirstRetries, hpr, ih hrest]

/-- C3: recording a tuple already present (by exact 4-tuple equality) in the
denied or pending queue increments the first matching record's retries and
leaves both queue lengths unchanged; recording a fresh tuple appends exactly
one pending record with retries 1; hence recording the same tuple three
times from the empty state yields one pending record with retries 3. -/
theorem c3_record_pending (s : AuthState) (domain : String)
    (address : Option String) (mechanism credential user_id : String) :
    (s.denied.any (fun r => r.tupleEq domain address mechanism credential)
        = true →
      ∃ q1 r q2, s.denied = q1 ++ r :: q2 ∧
        (∀ x ∈ q1, x.tupleEq domain address mechanism credential = false) ∧
        r.tupleEq domain address mechanism credential = true ∧
        updateAuthPending s domain address mechanism credential user_id =
          { s with denied :=
              q1 ++ { r with retries := r.retries + 1 } :: q2 } ∧
        (updateAuthPending s domain address mechanism credential
          user_id).denied.length = s.denied.length ∧
        (updateAuthPending s domain address mechanism credential
          user_id).pending.length = s.pending.length) ∧
    (s.denied.any (fun r => r.tupleEq domain address mechanism credential)
        = false →
      s.pending.any (fun r => r.tupleEq domain address mechanism credential)
        = true →
      ∃ q1 r q2, s.pending = q1 ++ r :: q2 ∧
        (∀ x ∈ q1, x.tupleEq domain address mechanism credential = false) ∧
        r.tupleEq domain address mechanism credential = true ∧
        updateAuthPending s domain address mechanism credential user_id =
          { s with pending :=
              q1 ++ { r with retries := r.retries + 1 } :: q2 } ∧
        (updateAuthPending s domain address mechanism credential
          user_id).denied.length = s.denied.length ∧
        (updateAuthPending s domain address mechanism credential
          user_id).pending.length = s.pending.length) ∧
    (s.denied.any (fun r => r.tupleEq domain address mechanism credential)
        = false →
      s.pending.any (fun r => r.tupleEq domain address mechanism credential)
        = false →
      updateAuthPending s domain address mechanism credential user_id =
        { s with pending := s.pending ++
            [⟨domain, address, mechanism, credential, user_id, 1⟩] }) ∧
    (updateAuthPending (updateAuthPending (updateAuthPending emptyAuthState
        domain address mechanism credential user_id)
        domain address mechanism credential user_id)
        domain address mechanism credential user_id).pending =
      [⟨domain, address, mechanism, credential, user_id, 3⟩] := by
  refine ⟨?_, ?_, ?_, ?_⟩
  · intro hd
    obtain ⟨q1, r, q2, heq, h1, h2, h3⟩ := incFirstRetries_of_any s.denied _ hd
    refine ⟨q1, r, q2, heq, h1, h2, ?_⟩
    have : updateAuthPending s domain address mechanism credential user_id =
        { s with denied := q1 ++ { r with retries := r.retries + 1 } :: q2 }
      := by
      simp [updateAuthPending, h3]
    refine ⟨this, ?_, ?_⟩ <;> simp [this, heq]
  · intro hd hp
    obtain ⟨q1, r, q2, heq, h1, h2, h3⟩ :=
      incFirstRetries_of_any s.pending _ hp
    have hdn := incFirstRetries_of_none s.denied _ hd
    refine ⟨q1, r, q2, heq, h1, h2, ?_⟩
    have : updateAuthPending s domain address mechanism credential user_id =
        { s with pending := q1 ++ { r with retries := r.retries + 1 } :: q2 }
      := by
      simp [updateAuthPending, hdn, h3]
    refine ⟨this, ?_, ?_⟩ <;> simp [this, heq]
  · intro hd hp
    have hdn := incFirstRetries_of_none s.denied _ hd
    have hpn := incFirstRetries_of_none s.pending _ hp
    simp [updateAuthPending, hdn, hpn]
  · simp [updateAuthPending, emptyAuthState, incFirstRetries, QRec.tupleEq]

/-- C3 witness: with one pending record for the tuple, recording it again
keeps both queue lengths and bumps retries at the head. -/
theorem c3_witness :
    ∃ q1 r q2, ([⟨"d", some "a", "m", "c", "u", 1⟩] : List QRec) =
        q1 ++ r :: q2 ∧
      (∀ x ∈ q1, x.tupleEq "d" (some "a") "m" "c" = false) ∧
      r.tupleEq "d" (some "a") "m" "c" = true ∧
      updateAuthPending ⟨⟨[], []⟩, [⟨"d", some "a", "m", "c", "u", 1⟩], [],
          []⟩ "d" (some "a") "m" "c" "u" =
        { (⟨⟨[], []⟩, [⟨"d", some "a", "m", "c", "u", 1⟩], [], []⟩ :
            AuthState) with pending :=
              q1 ++ { r with retries := r.retries + 1 } :: q2 } ∧
      (updateAuthPending ⟨⟨[], []⟩, [⟨"d", some "a", "m", "c", "u", 1⟩], [],
          []⟩ "d" (some "a") "m" "c" "u").denied.length = 0 ∧
      (updateAuthPending ⟨⟨[], []⟩, [⟨"d", some "a", "m", "c", "u", 1⟩], [],
          []⟩ "d" (some "a") "m" "c" "u").pending.length = 1 :=
  (c3_record_pending ⟨⟨[], []⟩, [⟨"d", some "a", "m", "c", "u", 1⟩], [], []⟩
    "d" (some "a") "m" "c" "u").2.1 (by decide) (by decide)

/-! ## C4: approve then delete -/

/-- Modelled from the spec (§6): `AuthFile.add(entry, overwrite=False,
is_allow)` appends the entry to the allow or deny list; with overwrite off
it raises AuthException when an entry with the same credentials already
exists (the caller catches and logs it, leaving the store unchanged). -/
def authFileAdd (st : AuthStore) (e : StoredEntry) (is_allow : Bool) :
    AuthStore :=
  if is_allow then
    if st.allow.any (fun x => x.credentials == e.credentials) then st
    else { st with allow := st.allow ++ [e] }
  else
    if st.deny.any (fun x => x.credentials == e.credentials) then st
    else { st with deny := st.deny ++ [e] }

/-- Modelled from the spec (§4.2, §6): `AuthFile.remove_by_credentials`
removes the persisted entries with the given credential key from the allow
or deny list. -/
def authFileRemoveByCredentials (st : AuthStore) (cred : String)
    (is_allow : Bool) : AuthStore :=
  if is_allow then
    { st with allow := st.allow.filter (fun e => !(e.credentials == cred)) }
  else
    { st with deny := st.deny.filter (fun e => !(e.credentials == cred)) }

/-- Modelled from the spec (§4.2, §6): `AuthFile.approve_deny_credential`
flips the persisted entries with the given user id between the deny and
allow lists. -/
def approveDenyCredential (st : AuthStore) (user_id : String)
    (is_approved : Bool) : AuthStore :=
  if is_approved then
    { allow := st.allow ++ st.deny.filter (fun e => e.user_id == user_id),
      deny := st.deny.filter (fun e => !(e.user_id == user_id)) }
  else
    { allow := st.allow.filter (fun e => !(e.user_id == user_id)),
      deny := st.deny ++ st.allow.filter (fun e => e.user_id == user_id) }

/-- `AuthService._update_auth_entry` (auth.py lines 977-1005): build a new
enabled entry from the pending record's fields with the marker comment and
add it to the store; an AuthException from the store is caught and logged. -/
def updateAuthEntryOp (s : AuthState) (domain : String)
    (address : Option String) (mechanism credential user_id : String)
    (is_allow : Bool) : AuthState :=
  { s with store := (authFileAdd s.store
      ⟨domain, address, mechanism, credential, user_id,
        "Auth entry added in setup mode", true⟩ is_allow) }

/-- The projection building one queue record from a persisted entry
(auth.py lines 433-441). -/
def projEntry (e : StoredEntry) : QRec :=
  ⟨e.domain, e.address, e.mechanism, e.credentials, e.user_id, 0⟩

/-- `AuthService._update_auth_lists` (auth.py lines 430-450): project the
entries and keep those with a populated (non-None) address. -/
def updateAuthLists (entries : List StoredEntry) : List QRec :=
  (entries.map projEntry).filter (fun r => r.address.isSome)

/-- The queue rebuild performed by `read_auth_file` (auth.py lines 508-510):
the approved and denied queues are recomputed wholesale from the store's
current allow and deny lists.  In the running system this happens on every
auth-file change through the file watcher; the file load itself is the
identity here because the store model is the file's content. -/
def readAuthFile (s : AuthState) : AuthState :=
  { s with approved := updateAuthLists s.store.allow,
           denied := updateAuthLists s.store.deny }

/-- The scan-and-del pattern of the operator actions (auth.py lines
736-752 etc.): find the first queue record with the given user id and
remove it, returning the record. -/
def removeFirstUser (q : List QRec) (u : String) :
    Option (QRec × List QRec) :=
  match q with
  | [] => none
  | r :: rest =>
    if r.user_id = u then some (r, rest)
    else (removeFirstUser rest u).map (fun pr => (pr.1, r :: pr.2))

/-- `AuthService.approve_authorization_failure` (auth.py lines 701-764),
without the certificate subsystem (`self._certs is None` on the zmq bus):
promote the first matching pending record to a persisted enabled allow
entry and drop it from the pending queue; then, for matching denied-queue
records, flip the persisted credential to approved. -/
def approveAuthorizationFailure (s : AuthState) (user_id : String) :
    AuthState :=
  let s1 :=
    match removeFirstUser s.pending user_id with
    | some (p, rest) =>
      { (updateAuthEntryOp s p.domain p.address p.mechanism p.credentials
          p.user_id true) with pending := rest }
    | none => s
  { s1 with store := (s1.denied.foldl
      (fun st r => if r.user_id = user_id then
        approveDenyCredential st user_id true else st) s1.store) }

/-- `AuthService.delete_authorization_failure` (auth.py lines 825-892),
without the certificate subsystem: the first pending scan adds the matching
record as a persisted entry (as the source does) and removes it from
pending; the second pending scan removes a further match; then each
matching approved-queue record has its persisted allow entry removed by
credentials, and each matching denied-queue record its deny entry. -/
def deleteAuthorizationFailure (s : AuthState) (user_id : String) :
    AuthState :=
  let s1 :=
    match removeFirstUser s.pending user_id with
    | some (p, rest) =>
      { (updateAuthEntryOp s p.domain p.address p.mechanism p.credentials
          p.user_id true) with pending := rest }
    | none => s
  let s2 :=
    match removeFirstUser s1.pending user_id with
    | some (_, rest) => { s1 with pending := rest }
    | none => s1
  let s3 := { s2 with store := (s2.approved.foldl
      (fun (st : AuthStore) (r : QRec) => if r.user_id = user_id then
        authFileRemoveByCredentials st r.credentials true else st)
      s2.store) }
  { s3 with store := (s3.denied.foldl
      (fun (st : AuthStore) (r : QRec) => if r.user_id = user_id then
        authFileRemoveByCredentials st r.credentials false else st)
      s3.store) }

/-- The scan finds the first record with the user id. -/
theorem removeFirstUser_decomp (p1 : List QRec) (P : QRec) (p2 : List QRec)
    (u : String) (h1 : ∀ q ∈ p1, q.user_id ≠ u) (hP : P.user_id = u) :
    removeFirstUser (p1 ++ P :: p2) u = some (P, p1 ++ p2) := by
  induction p1 with
  | nil => simp [removeFirstUser, hP]
  | cons q rest ih =>
    have hq : ¬ q.user_id = u := h1 q (List.mem_cons_self q rest)
    have ih2 := ih (fun x hx => h1 x (List.mem_cons_of_mem q hx))
    simp [removeFirstUser, hq, ih2]

/-- The scan finds nothing when no record has the user id. -/
theorem removeFirstUser_none (q : List QRec) (u : String)
    (h : ∀ r ∈ q, r.user_id ≠ u) : removeFirstUser q u = none := by
  induction q with
  | nil => rfl
  | cons r rest ih =>
    have hr : ¬ r.user_id = u := h r (List.mem_cons_self r rest)
    have ih2 := ih (fun x hx => h x (List.mem_cons_of_mem r hx))
    simp [removeFirstUser, hr, ih2]

/-- A fold whose step fires only on records with the user id skips a queue
containing none. -/
theorem foldl_skip_user (f : AuthStore → QRec → AuthStore) (u : String)
    (hf : ∀ st r, r.user_id ≠ u → f st r = st)
    (q : List QRec) (st : AuthStore) (h : ∀ r ∈ q, r.user_id ≠ u) :
    q.foldl f st = st := by
  induction q generalizing st with
  | nil => rfl
  | cons r rest ih =>
    have hr := hf st r (h r (List.mem_cons_self r rest))
    simp only [List.foldl_cons, hr]
    exact ih st (fun x hx => h x (List.mem_cons_of_mem r hx))

/-- The projection distributes over appended store lists. -/
theorem updateAuthLists_append (l1 l2 : List StoredEntry) :
    updateAuthLists (l1 ++ l2) = updateAuthLists l1 ++ updateAuthLists l2 := by
  simp [updateAuthLists]

/-- Every projected queue record comes from a store entry. -/
theorem mem_updateAuthLists (l : List StoredEntry) (r : QRec)
    (h : r ∈ updateAuthLists l) : ∃ e ∈ l, r = projEntry e := by
  unfold updateAuthLists at h
  obtain ⟨h1, _⟩ := List.mem_filter.mp h
  obtain ⟨e, he, rfl⟩ := List.mem_map.mp h1
  exact ⟨e, he, rfl⟩

/-- A store list with no record of the user projects to a queue with none. -/
theorem updateAuthLists_user (l : List StoredEntry) (u : String)
    (h : ∀ e ∈ l, e.user_id ≠ u) :
    ∀ r ∈ updateAuthLists l, r.user_id ≠ u := by
  intro r hr
  obtain ⟨e, he, rfl⟩ := mem_updateAuthLists l r hr
  exact h e he

/-- The operator flow of the claim: Approve, the file-watch reload its
persisted write triggers (spec §4.3), Delete, and the reload its persisted
removal triggers. -/
def approveDeleteRun (s : AuthState) (u : String) : AuthState :=
  readAuthFile (deleteAuthorizationFailure
    (readAuthFile (approveAuthorizationFailure s u)) u)

/-- C4: for a user id present (once) in the pending queue, approving and
then deleting it leaves the user id in none of the pending, approved or
denied queues, and the persisted entry created by the approval is removed
from the store by the delete. -/
theorem c4_approve_then_delete (s : AuthState) (u : String)
    (p1 p2 : List QRec) (P : QRec)
    (hdecomp : s.pending = p1 ++ P :: p2)
    (hP : P.user_id = u)
    (h1 : ∀ q ∈ p1, q.user_id ≠ u)
    (h2 : ∀ q ∈ p2, q.user_id ≠ u)
    (haddr : P.address.isSome = true)
    (hcred : ∀ e ∈ s.store.allow, e.credentials ≠ P.credentials)
    (huid : ∀ e ∈ s.store.allow, e.user_id ≠ u)
    (hdeny : ∀ e ∈ s.store.deny, e.user_id ≠ u)
    (hdq : ∀ r ∈ s.denied, r.user_id ≠ u) :
    (∀ q ∈ (approveDeleteRun s u).pending, q.user_id ≠ u) ∧
    (∀ r ∈ (approveDeleteRun s u).approved, r.user_id ≠ u) ∧
    (∀ r ∈ (approveDeleteRun s u).denied, r.user_id ≠ u) ∧
    (∀ e ∈ (approveDeleteRun s u).store.allow,
      e.credentials ≠ P.credentials) ∧
    (∀ e ∈ (approveDeleteRun s u).store.allow, e.user_id ≠ u) := by
  obtain ⟨⟨al, dl⟩, pen, app, den⟩ := s
  simp only at hdecomp hcred huid hdeny hdq
  subst hdecomp
  have hrfu := removeFirstUser_decomp p1 P p2 u h1 hP
  have hany : (al.any fun x => x.credentials == P.credentials) = false := by
    rw [List.any_eq_false]
    intro x hx
    simp only [beq_iff_eq]
    exact hcred x hx
  have hA : approveAuthorizationFailure ⟨⟨al, dl⟩, p1 ++ P :: p2, app, den⟩ u
      = ⟨⟨al ++ [⟨P.domain, P.address, P.mechanism, P.credentials, P.user_id,
          "Auth entry added in setup mode", true⟩], dl⟩, p1 ++ p2, app, den⟩
      := by
    simp only [approveAuthorizationFailure, hrfu, updateAuthEntryOp,
      authFileAdd, hany]
    rw [foldl_skip_user _ u (fun st r hr => if_neg hr) den _ hdq]
    simp
  have hsingle : updateAuthLists [⟨P.domain, P.address, P.mechanism,
      P.credentials, P.user_id, "Auth entry added in setup mode", true⟩]
      = [projEntry ⟨P.domain, P.address, P.mechanism, P.credentials,
          P.user_id, "Auth entry added in setup mode", true⟩] := by
    simp [updateAuthLists, projEntry, haddr]
  have hB : readAuthFile (approveAuthorizationFailure
      ⟨⟨al, dl⟩, p1 ++ P :: p2, app, den⟩ u)
      = ⟨⟨al ++ [⟨P.domain, P.address, P.mechanism, P.credentials, P.user_id,
          "Auth entry added in setup mode", true⟩], dl⟩, p1 ++ p2,
        updateAuthLists al ++ [projEntry ⟨P.domain, P.address, P.mechanism,
          P.credentials, P.user_id, "Auth entry added in setup mode",
          true⟩], updateAuthLists dl⟩ := by
    rw [hA]
    simp only [readAuthFile, updateAuthLists_append, hsingle]
  have hpnone : removeFirstUser (p1 ++ p2) u = none := by
    apply removeFirstUser_none
    intro r hr
    rcases List.mem_append.mp hr with hr1 | hr2
    · exact h1 r hr1
    · exact h2 r hr2
  have hremove : authFileRemoveByCredentials
      ⟨al ++ [⟨P.domain, P.address, P.mechanism, P.credentials, P.user_id,
        "Auth entry added in setup mode", true⟩], dl⟩ P.credentials true
      = ⟨al, dl⟩ := by
    have hfilter : (al ++ [(⟨P.domain, P.address, P.mechanism, P.credentials,
        P.user_id, "Auth entry added in setup mode", true⟩ :
          StoredEntry)]).filter
        (fun e => !(e.credentials == P.credentials)) = al := by
      rw [List.filter_append]
      have hal : al.filter (fun e => !(e.credentials == P.credentials)) = al
        := by
        apply List.filter_eq_self.mpr
        intro e he
        simp only [Bool.not_eq_true', beq_eq_false_iff_ne]
        exact hcred e he
      have hE : ([(⟨P.domain, P.address, P.mechanism, P.credentials,
          P.user_id, "Auth entry added in setup mode", true⟩ :
            StoredEntry)]).filter
          (fun e => !(e.credentials == P.credentials)) = [] := by simp
      rw [hal, hE, List.append_nil]
    simp only [authFileRemoveByCredentials, if_pos]
    rw [hfilter]
  have hC : deleteAuthorizationFailure (readAuthFile
      (approveAuthorizationFailure ⟨⟨al, dl⟩, p1 ++ P :: p2, app, den⟩ u)) u
      = ⟨⟨al, dl⟩, p1 ++ p2,
        updateAuthLists al ++ [projEntry ⟨P.domain, P.address, P.mechanism,
          P.credentials, P.user_id, "Auth entry added in setup mode",
          true⟩], updateAuthLists dl⟩ := by
    rw [hB]
    simp only [deleteAuthorizationFailure, hpnone]
    rw [List.foldl_append]
    rw [foldl_skip_user _ u (fun st r hr => if_neg hr) (updateAuthLists al) _
      (updateAuthLists_user al u huid)]
    simp only [List.foldl_cons, List.foldl_nil, projEntry]
    rw [if_pos hP, hremove]
    rw [foldl_skip_user _ u (fun st r hr => if_neg hr) (updateAuthLists dl) _
      (updateAuthLists_user dl u hdeny)]
  have hF : approveDeleteRun ⟨⟨al, dl⟩, p1 ++ P :: p2, app, den⟩ u
      = ⟨⟨al, dl⟩, p1 ++ p2, updateAuthLists al, updateAuthLists dl⟩ := by
    unfold approveDeleteRun
    rw [hC]
    simp only [readAuthFile]
  rw [hF]
  refine ⟨?_, ?_, ?_, ?_, ?_⟩
  · intro q hq
    rcases List.mem_append.mp hq with hq1 | hq2
    · exact h1 q hq1
    · exact h2 q hq2
  · exact updateAuthLists_user al u huid
  · exact updateAuthLists_user dl u hdeny
  · exact hcred
  · exact huid

/-- C4 witness: a single pending record approved and deleted on a fresh
coordinator leaves every queue and the store free of it. -/
theorem c4_witness :
    (∀ q ∈ (approveDeleteRun ⟨⟨[], []⟩,
      [⟨"d", some "addr", "NULL", "cred", "u1", 1⟩], [], []⟩ "u1").pending,
      q.user_id ≠ "u1") ∧
    (∀ r ∈ (approveDeleteRun ⟨⟨[], []⟩,
      [⟨"d", some "addr", "NULL", "cred", "u1", 1⟩], [], []⟩ "u1").approved,
      r.user_id ≠ "u1") ∧
    (∀ r ∈ (approveDeleteRun ⟨⟨[], []⟩,
      [⟨"d", some "addr", "NULL", "cred", "u1", 1⟩], [], []⟩ "u1").denied,
      r.user_id ≠ "u1") ∧
    (∀ e ∈ (approveDeleteRun ⟨⟨[], []⟩,
      [⟨"d", some "addr", "NULL", "cred", "u1", 1⟩], [], []⟩
        "u1").store.allow, e.credentials ≠ "cred") ∧
    (∀ e ∈ (approveDeleteRun ⟨⟨[], []⟩,
      [⟨"d", some "addr", "NULL", "cred", "u1", 1⟩], [], []⟩
        "u1").store.allow, e.user_id ≠ "u1") :=
  c4_approve_then_delete ⟨⟨[], []⟩,
    [⟨"d", some "addr", "NULL", "cred", "u1", 1⟩], [], []⟩ "u1"
    [] [] ⟨"d", some "addr", "NULL", "cred", "u1", 1⟩ rfl rfl
    (fun q hq => absurd hq (List.not_mem_nil q))
    (fun q hq => absurd hq (List.not_mem_nil q))
    rfl
    (fun e he => absurd he (List.not_mem_nil e))
    (fun e he => absurd he (List.not_mem_nil e))
    (fun e he => absurd he (List.not_mem_nil e))
    (fun r hr => absurd hr (List.not_mem_nil r))

/-! ## RPC-authorization reconciliation model (claims C5, C6)

`update_rpc_authorizations` pushes per-method capability requirements to
live agents.  The runs of the function are modelled as the trace of calls
and log lines they produce.  Only the bulk call's outcome is observable to
the coordinator — it is the one call followed by `.wait(timeout=4)`
(auth.py line 292); the per-method fallback calls at lines 308-316 are
issued without a wait, so their results never reach the coordinator. -/

/-- One auth entry as seen by the reconciliation and mutation code: its
identity (None possible) and its `rpc_method_authorizations` mapping,
modelled as an association list in dict insertion order. -/
structure RpcEntry where
  identity : Option String
  rpc_method_authorizations : List (String × List String)
deriving DecidableEq, Repr

instance : Inhabited RpcEntry := ⟨⟨none, []⟩⟩

/-- The outcome of one peer RPC call. -/
inductive RpcOutcome where
  | ok
  | timeout
  | remoteError
deriving DecidableEq, Repr

/-- The transport oracle: the outcome of the waited-on bulk
`auth.set_multiple_rpc_authorizations` call.  The per-method
`auth.set_rpc_authorizations` calls are not waited on, so the program
observes no outcome for them and the oracle carries none. -/
structure RpcEnv where
  bulk : String → List (String × List String) → RpcOutcome

/-- An observable event of a reconciliation run: a call issued or an error
logged.  `logSingleTimeout` and `logNoMethod` stand for the log lines of
the per-method except handlers (auth.py lines 317-325); the trace model
never emits them, because the unwaited per-method calls cannot raise the
exceptions those handlers catch. -/
inductive AuthEvent where
  | bulkCall (identity : String) (methods : List (String × List String))
  | singleCall (identity : String) (method : String) (caps : List String)
  | logBulkTimeout (identity : String)
  | logSingleTimeout (identity : String)
  | logNoMethod (method : String)
deriving DecidableEq, Repr

/-- The `modified_methods` dict built at auth.py lines 274-284: the methods
of the entry whose capability list is non-empty, in mapping order. -/
def modifiedMethods (e : RpcEntry) : List (String × List String) :=
  e.rpc_method_authorizations.filter (fun p => !p.2.isEmpty)

/-- The body of the `for entry in entries` loop of
`AuthService.update_rpc_authorizations` (auth.py lines 266-326) for one
entry, as the list of events it produces: skip core agents; push the bulk
mapping when non-empty; on a remote rejection of the bulk call fall back to
one fire-and-forget call per method.  The fallback calls carry no `.wait`,
so no per-method outcome is observed and the except handlers of lines
317-325 never run: the fallback arm emits the calls and nothing else. -/
def entryEvents (env : RpcEnv) (procIds : List String) (controlConn : String)
    (e : RpcEntry) : List AuthEvent :=
  match e.identity with
  | none => []
  | some ident =>
    if ident ∈ procIds ∨ ident = controlConn then []
    else
      let mm := modifiedMethods e
      if mm.isEmpty then []
      else
        match env.bulk ident mm with
        | .ok => [.bulkCall ident mm]
        | .timeout => [.bulkCall ident mm, .logBulkTimeout ident]
        | .remoteError =>
          .bulkCall ident mm ::
            mm.map (fun p => .singleCall ident p.1 p.2)

/-- `AuthService.update_rpc_authorizations` (auth.py lines 259-326) as the
trace of events of the whole entry loop. -/
def updateRpcAuthorizations (env : RpcEnv) (procIds : List String)
    (controlConn : String) (entries : List RpcEntry) : List AuthEvent :=
  entries.flatMap (entryEvents env procIds controlConn)

/-! ## C5: per-method fallback on remote rejection -/

/-- The per-method pushes occurring in a trace. -/
def singleCallsOf (tr : List AuthEvent) : List (String × List String) :=
  tr.filterMap (fun ev =>
    match ev with
    | .singleCall _ m caps => some (m, caps)
    | _ => none)

/-- The fallback block issues exactly one per-method call per batch method,
in batch order. -/
theorem singleCallsOf_fallback (ident : String)
    (mm : List (String × List String)) :
    singleCallsOf (mm.map (fun p =>
      AuthEvent.singleCall ident p.1 p.2)) = mm := by
  induction mm with
  | nil => rfl
  | cons p t ih =>
    simpa [singleCallsOf, List.map_cons] using ih

/-- C5 counterexample: the claim's scenario — the bulk push for "sensor1"
is rejected because "get_point" is unknown at the peer.  The fallback
issues the individual call for "get_point", but the coordinator's trace
contains no "method does not exist" log for it: the per-method call is not
waited on, so the rejection the peer reports never reaches the coordinator
and the logging branch of the claim is false. -/
theorem c5_counterexample :
    AuthEvent.singleCall "sensor1" "get_point" ["operator"] ∈
      entryEvents ⟨fun _ _ => .remoteError⟩ ["platform.control"]
        "control.connection"
        ⟨some "sensor1", [("get_point", ["operator"]), ("set_point", [])]⟩ ∧
    AuthEvent.logNoMethod "get_point" ∉
      entryEvents ⟨fun _ _ => .remoteError⟩ ["platform.control"]
        "control.connection"
        ⟨some "sensor1", [("get_point", ["operator"]), ("set_point", [])]⟩ ∧
    AuthEvent.logSingleTimeout "sensor1" ∉
      entryEvents ⟨fun _ _ => .remoteError⟩ ["platform.control"]
        "control.connection"
        ⟨some "sensor1", [("get_point", ["operator"]), ("set_point", [])]⟩
    := by
  decide

/-- C5 (amended): when the bulk push for an entry is rejected by the peer,
the coordinator falls back to issuing one fire-and-forget RPC call per
batch method — exactly one per method, in batch order — and no method
aborts the remaining ones or raises an exception to the reload caller; but
because the per-method calls are not waited on, no per-method rejection or
timeout is ever observed or logged. -/
theorem c5_bulk_fallback (env : RpcEnv) (procIds : List String)
    (controlConn : String) (e : RpcEntry) (ident : String)
    (hid : e.identity = some ident)
    (hproc : ident ∉ procIds) (hcc : ident ≠ controlConn)
    (hbulk : env.bulk ident (modifiedMethods e) = .remoteError)
    (hmm : modifiedMethods e ≠ []) :
    entryEvents env procIds controlConn e =
      .bulkCall ident (modifiedMethods e) ::
        (modifiedMethods e).map (fun p =>
          AuthEvent.singleCall ident p.1 p.2) ∧
    singleCallsOf (entryEvents env procIds controlConn e) =
      modifiedMethods e ∧
    (∀ p ∈ modifiedMethods e,
      AuthEvent.singleCall ident p.1 p.2 ∈
        entryEvents env procIds controlConn e) ∧
    (∀ m, AuthEvent.logNoMethod m ∉ entryEvents env procIds controlConn e) ∧
    (∀ i2, AuthEvent.logSingleTimeout i2 ∉
      entryEvents env procIds controlConn e) := by
  have hskip : ¬(ident ∈ procIds ∨ ident = controlConn) := by
    rintro (h | h)
    · exact hproc h
    · exact hcc h
  have hne : (modifiedMethods e).isEmpty = false := by
    cases hmm2 : modifiedMethods e with
    | nil => exact absurd hmm2 hmm
    | cons a t => rfl
  have htrace : entryEvents env procIds controlConn e =
      .bulkCall ident (modifiedMethods e) ::
        (modifiedMethods e).map (fun p =>
          AuthEvent.singleCall ident p.1 p.2) := by
    simp [entryEvents, hid, hskip, hne, hbulk]
  refine ⟨htrace, ?_, ?_, ?_, ?_⟩
  · rw [htrace]
    simpa [singleCallsOf] using singleCallsOf_fallback ident
      (modifiedMethods e)
  · intro p hp
    rw [htrace]
    exact List.mem_cons_of_mem _ (List.mem_map.mpr ⟨p, hp, rfl⟩)
  · intro m hmem
    rw [htrace] at hmem
    rcases List.mem_cons.mp hmem with h | h
    · cases h
    · obtain ⟨p, _, hp⟩ := List.mem_map.mp h
      cases hp
  · intro i2 hmem
    rw [htrace] at hmem
    rcases List.mem_cons.mp hmem with h | h
    · cases h
    · obtain ⟨p, _, hp⟩ := List.mem_map.mp h
      cases hp

/-- C5 witness: the scenario of the counterexample run through the amended
theorem — the rejected bulk push is followed by exactly the one
fire-and-forget call for "get_point" and nothing else. -/
theorem c5_witness :
    entryEvents ⟨fun _ _ => .remoteError⟩
      ["platform.control"] "control.connection"
      ⟨some "sensor1", [("get_point", ["operator"]), ("set_point", [])]⟩ =
      [.bulkCall "sensor1" [("get_point", ["operator"])],
       .singleCall "sensor1" "get_point" ["operator"]] := by
  have h := (c5_bulk_fallback ⟨fun _ _ => .remoteError⟩
    ["platform.control"] "control.connection"
    ⟨some "sensor1", [("get_point", ["operator"]), ("set_point", [])]⟩
    "sensor1" rfl (by decide) (by decide) rfl (by decide)).1
  rw [h]
  decide

/-! ## C6: bulk push contents -/

/-- C6: for a non-privileged identity, the bulk push carries exactly the
methods whose required-capabilities list is non-empty (empty-list methods
are excluded), and an entry whose methods all have empty lists produces no
push at all. -/
theorem c6_bulk_push_contents (env : RpcEnv) (procIds : List String)
    (controlConn : String) (e : RpcEntry) (ident : String)
    (hid : e.identity = some ident)
    (hproc : ident ∉ procIds) (hcc : ident ≠ controlConn) :
    (modifiedMethods e ≠ [] →
      (entryEvents env procIds controlConn e).head? =
        some (.bulkCall ident (modifiedMethods e)) ∧
      (∀ meth caps, (meth, caps) ∈ modifiedMethods e ↔
        ((meth, caps) ∈ e.rpc_method_authorizations ∧ caps ≠ []))) ∧
    ((∀ p ∈ e.rpc_method_authorizations, p.2 = []) →
      entryEvents env procIds controlConn e = []) := by
  have hskip : ¬(ident ∈ procIds ∨ ident = controlConn) := by
    rintro (h | h)
    · exact hproc h
    · exact hcc h
  constructor
  · intro hmm
    have hne : (modifiedMethods e).isEmpty = false := by
      cases hmm2 : modifiedMethods e with
      | nil => exact absurd hmm2 hmm
      | cons a t => rfl
    constructor
    · cases hb : env.bulk ident (modifiedMethods e) <;>
        simp [entryEvents, hid, hskip, hne, hb]
    · intro meth caps
      simp [modifiedMethods, List.mem_filter]
  · intro hall
    have hmm0 : modifiedMethods e = [] := by
      apply List.filter_eq_nil_iff.mpr
      intro p hp
      simp [hall p hp]
    simp [entryEvents, hid, hskip, hmm0]

/-- C6 witness: the spec's scenario — identity "sensor1" with methods
get_point (operator) and set_point (no requirement) gets a single bulk push
containing only get_point. -/
theorem c6_witness :
    (entryEvents ⟨fun _ _ => .ok⟩ ["platform.control"]
      "control.connection" ⟨some "sensor1",
        [("get_point", ["operator"]), ("set_point", [])]⟩).head? =
      some (.bulkCall "sensor1" [("get_point", ["operator"])]) := by
  have h := ((c6_bulk_push_contents ⟨fun _ _ => .ok⟩
    ["platform.control"] "control.connection" ⟨some "sensor1",
      [("get_point", ["operator"]), ("set_point", [])]⟩ "sensor1" rfl
    (by decide) (by decide)).1 (by decide)).1
  simpa using h

/-! ## Authorization mutation API (claims C7, C8, C9) -/

/-- The outcome of one mutation RPC: the resulting allow store, the value
returned to the RPC caller (the source returns None on every path), and the
error lines logged server-side. -/
structure RpcMutationResult where
  store : List RpcEntry
  returned : Option String
  logs : List String
deriving DecidableEq, Repr

/-- The entry at index i of the allow store (`entries.index(entry)` always
names an in-range index in the source, so the default is never read). -/
def storeGet (store : List RpcEntry) (i : Nat) : RpcEntry :=
  store.getD i default

/-- The `for entry in entries: if entry.identity == identity` scan of the
mutation calls (auth.py lines 342-343, 383-384): index of the first entry
with the identity. -/
def findIdentityIdx (store : List RpcEntry) (identity : String) :
    Option Nat :=
  match store with
  | [] => none
  | e :: rest =>
    if e.identity = some identity then some 0
    else
      match findIdentityIdx rest identity with
      | some j => some (j + 1)
      | none => none

/-- Python dict read `entry.rpc_method_authorizations.get(method)` on the
association-list model. -/
def getCaps (rpc : List (String × List String)) (method : String) :
    Option (List String) :=
  match rpc with
  | [] => none
  | p :: rest => if p.1 = method then some p.2 else getCaps rest method

/-- Python dict write `entry.rpc_method_authorizations[method] = caps`:
update the key in place, or append it in insertion order. -/
def setCaps (rpc : List (String × List String)) (method : String)
    (caps : List String) : List (String × List String) :=
  match rpc with
  | [] => [(method, caps)]
  | p :: rest =>
    if p.1 = method then (method, caps) :: rest
    else p :: setCaps rest method caps

/-- The per-entry mutation of `add_rpc_authorizations` (auth.py lines
344-357): set the list when the method is untracked or empty, else extend
it with the given capabilities not already present. -/
def addCapsList (rpc : List (String × List String)) (method : String)
    (authorizations : List String) : List (String × List String) :=
  match getCaps rpc method with
  | none => setCaps rpc method authorizations
  | some cur =>
    if cur = [] then setCaps rpc method authorizations
    else setCaps rpc method (cur ++ authorizations.filter
      (fun a => decide (a ∈ authorizations) && decide (a ∉ cur)))

/-- `AuthService.add_rpc_authorizations` (auth.py lines 327-361). -/
def addRpcAuthorizations (procIds : List String) (controlConn : String)
    (store : List RpcEntry) (identity method : String)
    (authorizations : List String) : RpcMutationResult :=
  if identity ∈ procIds ∨ identity = controlConn then
    ⟨store, none, [identity ++ " cannot be modified using this command!"]⟩
  else
    match findIdentityIdx store identity with
    | some i =>
      let e := storeGet store i
      ⟨store.set i { e with rpc_method_authorizations := (addCapsList
          e.rpc_method_authorizations method authorizations) },
        none, []⟩
    | none => ⟨store, none, ["Agent identity not found in auth file!"]⟩

/-- `AuthService.delete_rpc_authorizations` (auth.py lines 363-428); the
`any_match` loop flag is the existence test it computes. -/
def deleteRpcAuthorizations (procIds : List String) (controlConn : String)
    (store : List RpcEntry) (identity method : String)
    (denied_authorizations : List String) : RpcMutationResult :=
  if identity ∈ procIds ∨ identity = controlConn then
    ⟨store, none, [identity ++ " cannot be modified using this command!"]⟩
  else
    match findIdentityIdx store identity with
    | some i =>
      let e := storeGet store i
      match getCaps e.rpc_method_authorizations method with
      | none =>
        ⟨store, none,
          [identity ++ " does not have a method called " ++ method]⟩
      | some cur =>
        if cur = [] then
          ⟨store, none, [identity ++ "." ++ method ++
            " does not have any authorized capabilities."]⟩
        else
          let invalidLogs := (denied_authorizations.filter
            (fun a => decide (a ∉ cur))).map
            (fun a => a ++ " is not an authorized capability for " ++ method)
          if ∃ a ∈ denied_authorizations, a ∈ cur then
            let newList := cur.filter
              (fun a => decide (a ∉ denied_authorizations))
            let newList2 := if newList = [] then [""] else newList
            ⟨store.set i { e with rpc_method_authorizations := (setCaps
                e.rpc_method_authorizations method newList2) },
              none, invalidLogs⟩
          else
            ⟨store, none, invalidLogs ++
              ["No matching authorized capabilities provided for " ++
                method]⟩
    | none => ⟨store, none, ["Agent identity not found in auth file!"]⟩

/-! ## C7: privileged identities are guarded, but only with a log line -/

/-- C7 counterexample: targeting a reserved process identity, the add
operation returns None to its RPC caller — no error value is returned (the
error is only logged server-side), so the claim that a descriptive error is
returned to the caller fails; the store is indeed unchanged. -/
theorem c7_counterexample :
    (addRpcAuthorizations ["platform.driver"] "control.connection" []
      "platform.driver" "m" ["cap"]).returned = none ∧
    (addRpcAuthorizations ["platform.driver"] "control.connection" []
      "platform.driver" "m" ["cap"]).logs =
      ["platform.driver cannot be modified using this command!"] ∧
    (addRpcAuthorizations ["platform.driver"] "control.connection" []
      "platform.driver" "m" ["cap"]).store = [] := by
  exact ⟨rfl, rfl, rfl⟩

/-- C7 (amended): for a reserved process identity or the control-connection
identity, both mutation operations leave the store unchanged and log a
descriptive error, but return None (no error value) to the caller. -/
theorem c7_privileged_guard (procIds : List String) (controlConn : String)
    (store : List RpcEntry) (identity method : String) (caps : List String)
    (h : identity ∈ procIds ∨ identity = controlConn) :
    addRpcAuthorizations procIds controlConn store identity method caps =
      ⟨store, none,
        [identity ++ " cannot be modified using this command!"]⟩ ∧
    deleteRpcAuthorizations procIds controlConn store identity method caps =
      ⟨store, none,
        [identity ++ " cannot be modified using this command!"]⟩ := by
  constructor
  · simp [addRpcAuthorizations, h]
  · simp [deleteRpcAuthorizations, h]

/-- C7 witness: the guard fires on a concrete reserved identity. -/
theorem c7_witness :
    addRpcAuthorizations ["platform.driver"] "control.connection"
      [⟨some "platform.driver", [("m", ["x"])]⟩] "platform.driver" "m"
      ["cap"] =
      ⟨[⟨some "platform.driver", [("m", ["x"])]⟩], none,
        ["platform.driver cannot be modified using this command!"]⟩ ∧
    deleteRpcAuthorizations ["platform.driver"] "control.connection"
      [⟨some "platform.driver", [("m", ["x"])]⟩] "platform.driver" "m"
      ["cap"] =
      ⟨[⟨some "platform.driver", [("m", ["x"])]⟩], none,
        ["platform.driver cannot be modified using this command!"]⟩ :=
  c7_privileged_guard ["platform.driver"] "control.connection"
    [⟨some "platform.driver", [("m", ["x"])]⟩] "platform.driver" "m"
    ["cap"] (Or.inl (by decide))

/-! ## C8: removing the last capability leaves the sentinel -/

/-- The scan index is in range. -/
theorem findIdentityIdx_lt (store : List RpcEntry) (identity : String)
    (i : Nat) (h : findIdentityIdx store identity = some i) :
    i < store.length := by
  induction store generalizing i with
  | nil => cases h
  | cons a rest ih =>
    by_cases ha : a.identity = some identity
    · simp only [findIdentityIdx, if_pos ha, Option.some.injEq] at h
      subst h
      simp
    · simp only [findIdentityIdx, if_neg ha] at h
      cases hrest : findIdentityIdx rest identity with
      | none => rw [hrest] at h; cases h
      | some j =>
        rw [hrest] at h
        simp only [Option.some.injEq] at h
        subst h
        have := ih j hrest
        simpa using Nat.succ_lt_succ this

/-- The scanned-to entry carries the identity. -/
theorem findIdentityIdx_getD (store : List RpcEntry) (identity : String)
    (i : Nat) (h : findIdentityIdx store identity = some i) :
    (storeGet store i).identity = some identity := by
  induction store generalizing i with
  | nil => cases h
  | cons a rest ih =>
    by_cases ha : a.identity = some identity
    · simp only [findIdentityIdx, if_pos ha, Option.some.injEq] at h
      subst h
      simpa [storeGet] using ha
    · simp only [findIdentityIdx, if_neg ha] at h
      cases hrest : findIdentityIdx rest identity with
      | none => rw [hrest] at h; cases h
      | some j =>
        rw [hrest] at h
        simp only [Option.some.injEq] at h
        subst h
        exact ih j hrest

/-- Reading back the replaced element. -/
theorem storeGet_set_self (l : List RpcEntry) (i : Nat) (e : RpcEntry)
    (h : i < l.length) : storeGet (l.set i e) i = e := by
  induction l generalizing i with
  | nil => simp at h
  | cons a rest ih =>
    cases i with
    | zero => rfl
    | succ j => exact ih j (by simpa using h)

/-- A dict write is read back. -/
theorem getCaps_setCaps (rpc : List (String × List String))
    (method : String) (caps : List String) :
    getCaps (setCaps rpc method caps) method = some caps := by
  induction rpc with
  | nil => simp [setCaps, getCaps]
  | cons p rest ih =>
    by_cases hp : p.1 = method
    · simp [setCaps, hp, getCaps]
    · simp [setCaps, hp, getCaps, ih]

/-- Overwriting a dict key twice keeps the last value. -/
theorem setCaps_setCaps (rpc : List (String × List String))
    (method : String) (v1 v2 : List String) :
    setCaps (setCaps rpc method v1) method v2 = setCaps rpc method v2 := by
  induction rpc with
  | nil => simp [setCaps]
  | cons p rest ih =>
    by_cases hp : p.1 = method
    · simp [setCaps, hp]
    · simp [setCaps, hp, ih]

/-- Replacing the scanned-to entry by one with the same identity keeps the
scan result. -/
theorem findIdentityIdx_set (store : List RpcEntry) (identity : String)
    (i : Nat) (e2 : RpcEntry) (h : findIdentityIdx store identity = some i)
    (hid : e2.identity = some identity) :
    findIdentityIdx (store.set i e2) identity = some i := by
  induction store generalizing i with
  | nil => cases h
  | cons a rest ih =>
    by_cases ha : a.identity = some identity
    · simp only [findIdentityIdx, if_pos ha, Option.some.injEq] at h
      subst h
      simp [List.set, findIdentityIdx, hid]
    · simp only [findIdentityIdx, if_neg ha] at h
      cases hrest : findIdentityIdx rest identity with
      | none => rw [hrest] at h; cases h
      | some j =>
        rw [hrest] at h
        simp only [Option.some.injEq] at h
        subst h
        simp [List.set, findIdentityIdx, ha, ih j hrest]

/-- C8: for a tracked, non-empty method list, removing every present
capability leaves the single-element sentinel list [""] in the store; if
none of the requested capabilities is present, the operation logs the
no-matching-capabilities error and makes no change to the store. -/
theorem c8_remove_sentinel (procIds : List String) (controlConn : String)
    (store : List RpcEntry) (identity method : String)
    (denied : List String) (i : Nat) (cur : List String)
    (hpriv : ¬(identity ∈ procIds ∨ identity = controlConn))
    (hfind : findIdentityIdx store identity = some i)
    (hget : getCaps (storeGet store i).rpc_method_authorizations method
      = some cur)
    (hne : cur ≠ []) :
    ((∀ a ∈ cur, a ∈ denied) →
      getCaps (storeGet (deleteRpcAuthorizations procIds controlConn store
          identity method denied).store i).rpc_method_authorizations
        method = some [""]) ∧
    ((∀ a ∈ denied, a ∉ cur) →
      (deleteRpcAuthorizations procIds controlConn store identity method
        denied).store = store ∧
      ("No matching authorized capabilities provided for " ++ method) ∈
        (deleteRpcAuthorizations procIds controlConn store identity method
          denied).logs) := by
  constructor
  · intro hsub
    obtain ⟨c, hc⟩ := List.exists_mem_of_ne_nil cur hne
    have hexists : ∃ a ∈ denied, a ∈ cur := ⟨c, hsub c hc, hc⟩
    have hnewlist : cur.filter (fun a => decide (a ∉ denied)) = [] := by
      apply List.filter_eq_nil_iff.mpr
      intro a ha
      simp [hsub a ha]
    have hres : (deleteRpcAuthorizations procIds controlConn store identity
        method denied).store = store.set i
        { storeGet store i with rpc_method_authorizations := (setCaps
            (storeGet store i).rpc_method_authorizations method [""]) }
        := by
      simp only [deleteRpcAuthorizations, if_neg hpriv, hfind, hget,
        if_neg hne, if_pos hexists, hnewlist]
      simp
    rw [hres, storeGet_set_self store i _
      (findIdentityIdx_lt store identity i hfind)]
    exact getCaps_setCaps _ method [""]
  · intro hnomatch
    have hnoexists : ¬ ∃ a ∈ denied, a ∈ cur := by
      rintro ⟨a, ha, hac⟩
      exact hnomatch a ha hac
    constructor
    · simp only [deleteRpcAuthorizations, if_neg hpriv, hfind, hget,
        if_neg hne, if_neg hnoexists]
    · simp only [deleteRpcAuthorizations, if_neg hpriv, hfind, hget,
        if_neg hne, if_neg hnoexists]
      exact List.mem_append_right _ (List.mem_singleton.mpr rfl)

/-- C8 witness: deleting both capabilities of a two-capability method
leaves the sentinel. -/
theorem c8_witness :
    getCaps (storeGet (deleteRpcAuthorizations ["platform.control"]
        "control.connection" [⟨some "sensor1", [("m", ["a", "b"])]⟩]
        "sensor1" "m" ["a", "b"]).store 0).rpc_method_authorizations "m"
      = some [""] :=
  (c8_remove_sentinel ["platform.control"] "control.connection"
    [⟨some "sensor1", [("m", ["a", "b"])]⟩] "sensor1" "m" ["a", "b"] 0
    ["a", "b"] (by decide) rfl rfl (by decide)).1 (by decide)

/-! ## C9: idempotence of AddMethodCapabilities -/

/-- C9 counterexample: adding the duplicate-bearing list ["a", "a"] to a
method currently holding ["b"] stores ["b", "a", "a"] — the appended
portion keeps both occurrences, so the stored list is not duplicate-free as
the claim asserts. -/
theorem c9_counterexample :
    getCaps (storeGet (addRpcAuthorizations ["platform.control"]
        "control.connection" [⟨some "sensor1", [("m", ["b"])]⟩] "sensor1"
        "m" ["a", "a"]).store 0).rpc_method_authorizations "m" =
      some ["b", "a", "a"] ∧
    ¬ (["b", "a", "a"] : List String).Nodup := by
  constructor
  · rfl
  · decide

/-- Re-adding the same capability list to a method list already containing
every element of it changes nothing. -/
theorem addCapsList_idem (rpc : List (String × List String))
    (method : String) (caps : List String) :
    addCapsList (addCapsList rpc method caps) method caps =
      addCapsList rpc method caps := by
  have main : ∀ v : List String, (∀ a ∈ caps, a ∈ v) →
      addCapsList (setCaps rpc method v) method caps =
        setCaps rpc method v := by
    intro v hv
    have hg := getCaps_setCaps rpc method v
    by_cases hvnil : v = []
    · have hcnil : caps = [] := by
        cases caps with
        | nil => rfl
        | cons a t =>
          exact absurd (hv a (List.mem_cons_self a t))
            (by rw [hvnil]; exact List.not_mem_nil a)
      subst hvnil
      subst hcnil
      simp [addCapsList, hg, setCaps_setCaps]
    · have hfilter : caps.filter
          (fun a => decide (a ∈ caps) && decide (a ∉ v)) = [] := by
        apply List.filter_eq_nil_iff.mpr
        intro a ha
        simp [hv a ha]
      simp only [addCapsList, hg, if_neg hvnil, hfilter, List.append_nil,
        setCaps_setCaps]
  cases hget : getCaps rpc method with
  | none =>
    have h1 : addCapsList rpc method caps = setCaps rpc method caps := by
      simp only [addCapsList, hget]
    rw [h1]
    exact main caps (fun a ha => ha)
  | some cur =>
    by_cases hcur : cur = []
    · have h1 : addCapsList rpc method caps = setCaps rpc method caps := by
        simp only [addCapsList, hget, if_pos hcur]
      rw [h1]
      exact main caps (fun a ha => ha)
    · have h1 : addCapsList rpc method caps = setCaps rpc method
          (cur ++ caps.filter
            (fun a => decide (a ∈ caps) && decide (a ∉ cur))) := by
        simp only [addCapsList, hget, if_neg hcur]
      rw [h1]
      apply main
      intro a ha
      by_cases hac : a ∈ cur
      · exact List.mem_append_left _ hac
      · refine List.mem_append_right _ (List.mem_filter.mpr ⟨ha, ?_⟩)
        simp [ha, hac]

/-- C9 (amended): AddMethodCapabilities is idempotent at the store level —
applying it twice with the same capability list leaves the same store as
applying it once; only occurrences of capabilities not already present are
appended, in input order (an input list that repeats a fresh capability is
appended with the repetition, so the no-duplicates rider holds only for
duplicate-free inputs). -/
theorem c9_add_idempotent (procIds : List String) (controlConn : String)
    (store : List RpcEntry) (identity method : String)
    (caps : List String) :
    (addRpcAuthorizations procIds controlConn
      (addRpcAuthorizations procIds controlConn store identity method
        caps).store identity method caps).store =
    (addRpcAuthorizations procIds controlConn store identity method
      caps).store := by
  by_cases hpriv : identity ∈ procIds ∨ identity = controlConn
  · simp [addRpcAuthorizations, hpriv]
  · cases hfind : findIdentityIdx store identity with
    | none => simp [addRpcAuthorizations, hpriv, hfind]
    | some i =>
      have hlt := findIdentityIdx_lt store identity i hfind
      have hident := findIdentityIdx_getD store identity i hfind
      have h1 : (addRpcAuthorizations procIds controlConn store identity
          method caps).store = store.set i
          { storeGet store i with rpc_method_authorizations := (addCapsList
              (storeGet store i).rpc_method_authorizations method caps) }
          := by
        simp only [addRpcAuthorizations, if_neg hpriv, hfind]
      rw [h1]
      have hfind2 : findIdentityIdx (store.set i
          { storeGet store i with rpc_method_authorizations := (addCapsList
              (storeGet store i).rpc_method_authorizations method caps) })
          identity = some i :=
        findIdentityIdx_set store identity i _ hfind hident
      have hgd : storeGet (store.set i { storeGet store i with
          rpc_method_authorizations := (addCapsList (storeGet store
            i).rpc_method_authorizations method caps) }) i =
          { storeGet store i with rpc_method_authorizations := (addCapsList
              (storeGet store i).rpc_method_authorizations method caps) } :=
        storeGet_set_self store i _ hlt
      simp only [addRpcAuthorizations, if_neg hpriv, hfind2, hgd]
      rw [List.set_set]
      rw [addCapsList_idem]
